import Mathlib

/-!
Shallow embedding of `server.py` from the google-flights-mcp repository.

Dates are modelled by their proleptic-Gregorian ordinal (as returned by
Python's `datetime.date.toordinal`): `datetime.date` is order-isomorphic to
its ordinal, `timedelta(days=1)` addition is `+ 1`, and `(r - d).days` is
`r - d`.  String outputs rendered with `json.dumps` are modelled as
inductive "output" values carrying the same fields.
-/

namespace Server

/-- A flight offer.  Every attribute may be missing (`server.py` reads them
with `getattr(flight, _, None)`), so each field is an `Option`. -/
structure Flight where
  is_best : Option Bool
  fname : Option String
  departure : Option String
  arrival : Option String
  arrival_time_ahead : Option String
  duration : Option String
  stops : Option Int
  delay : Option String
  price : Option String
deriving DecidableEq, Repr

/-- `flight_to_dict` copies the nine attributes (each defaulting to `None`)
into a dict; on the fully-optional `Flight` model this is the identity. -/
def flight_to_dict (f : Flight) : Flight := f

/-- Tail of the digit part of a Python integer literal: after the first
digit, single underscores may appear, each directly between two digits. -/
def pyDigitsTail : List Char → Bool
  | [] => true
  | '_' :: c :: rest => c.isDigit && pyDigitsTail rest
  | c :: rest => c.isDigit && pyDigitsTail rest

/-- Digits (with underscores removed) to a natural number. -/
def digitsToNat (cs : List Char) : Nat :=
  cs.foldl (fun a c => 10 * a + (c.toNat - 48)) 0

/-- Python's `int(s)` on a string: optional surrounding whitespace, an
optional sign, then one or more digits with single underscores allowed
between digits.  `none` models a raised `ValueError`. -/
def pyInt (s : String) : Option Int :=
  let cs := ((s.data.dropWhile (fun c => c.isWhitespace)).reverse.dropWhile
    (fun c => c.isWhitespace)).reverse
  let core : Int × List Char :=
    match cs with
    | '+' :: rest => (1, rest)
    | '-' :: rest => (-1, rest)
    | rest => (1, rest)
  match core.2 with
  | [] => none
  | c :: rest =>
    if c.isDigit && pyDigitsTail rest then
      some (core.1 * (digitsToNat ((c :: rest).filter (fun x => !(x = '_')))))
    else none

/-- `parse_price` from `server.py`: a missing price (`None`) or empty string
(falsy), or a string that `int()` rejects after removing every `$` and `,`,
yields `float('inf')` — modelled as `none`; otherwise the parsed integer. -/
def parse_price (price_str : Option String) : Option Int :=
  match price_str with
  | none => none
  | some s =>
    if s.data = [] then none
    else pyInt (String.mk (s.data.filter (fun c => !(c = '$' || c = ','))))

/-- Order on parsed prices where `none` plays `float('inf')` (greatest). -/
def infLE : Option Int → Option Int → Bool
  | _, none => true
  | none, some _ => false
  | some x, some y => decide (x ≤ y)

/-- Comparison used by `sorted(flights_list, key=lambda f: parse_price(f.price))`. -/
def priceLE (f g : Flight) : Bool := infLE (parse_price f.price) (parse_price g.price)

/-- The stop-count filter: `[f for f in flights_list if getattr(f, "stops", None) == stops]`
when `stops` is provided; Python's `None == stops` is `False`, so offers with a
missing stop count are dropped.  With `stops = None` no filtering happens. -/
def stopsFilter (stops : Option Int) (l : List Flight) : List Flight :=
  match stops with
  | none => l
  | some k => l.filter (fun f => decide (f.stops = some k))

/-- The sorting step: `sorted` is a stable ascending sort by the parsed price. -/
def sortOffers (sort_cheapest : Bool) (l : List Flight) : List Flight :=
  if sort_cheapest then l.mergeSort priceLE else l

/-- Python list slicing `l[:limit]` for `limit : Optional[int]`:
`None` keeps the whole list; a nonnegative bound takes that many elements
from the front; a negative bound drops that many elements from the back. -/
def pySlice (limit : Option Int) (l : List α) : List α :=
  match limit with
  | none => l
  | some n => if 0 ≤ n then l.take n.toNat else l.take ((l.length : Int) + n).toNat

/-- A provider `result` object: `result.flights` may itself be missing. -/
structure FResult where
  flights : Option (List Flight)
deriving DecidableEq, Repr

/-- `flights_list = result.flights if result and result.flights else []`:
a falsy `result` or falsy `result.flights` gives `[]` (an empty `flights`
list is also falsy, and the branch then returns `[]`, equal to it). -/
def flightsListOf (result : Option FResult) : List Flight :=
  match result with
  | none => []
  | some r =>
    match r.flights with
    | none => []
    | some l => l

/-- A Python exception, reduced to its type name and its `str(e)` message. -/
structure PyExc where
  ename : String
  msg : String
deriving DecidableEq, Repr

/-- Python string slicing `s[:n]` for nonnegative `n`. -/
def pyStrTake (n : Nat) (s : String) : String := String.mk (s.data.take n)

/- ### Calendar model (`datetime`) -/

/-- Gregorian leap-year rule. -/
def isLeap (y : Nat) : Bool :=
  decide (y % 4 = 0) && (decide (y % 100 ≠ 0) || decide (y % 400 = 0))

/-- Days in a month of a given year. -/
def daysInMonth (y m : Nat) : Nat :=
  if m = 2 then (if isLeap y then 29 else 28)
  else if m = 4 ∨ m = 6 ∨ m = 9 ∨ m = 11 then 30
  else 31

/-- Days in year `y` strictly before month `m`. -/
def daysBeforeMonth (y m : Nat) : Nat :=
  ((List.range' 1 (m - 1)).map (daysInMonth y)).sum

/-- Days strictly before January 1 of year `y` (proleptic Gregorian). -/
def daysBeforeYear (y : Nat) : Nat :=
  let p := y - 1
  365 * p + p / 4 + p / 400 - p / 100

/-- `datetime.date(y, m, d).toordinal()`: day count with 0001-01-01 = 1. -/
def toOrdinal (y m d : Nat) : Nat := daysBeforeYear y + daysBeforeMonth y m + d

/-- Largest month `m` in 1..12 whose cumulative day count is at most the
(0-based) day of the year `doy`. -/
def monthOfDayOfYear (y doy : Nat) : Nat :=
  (List.range' 1 12).foldl (fun acc m => if daysBeforeMonth y m ≤ doy then m else acc) 1

/-- `datetime.date.fromordinal`: ordinal back to (year, month, day), the
400/100/4/1-year decomposition used by CPython's `_ord2ymd`. -/
def ord2ymd (n : Nat) : Nat × Nat × Nat :=
  let n0 := n - 1
  let n400 := n0 / 146097
  let r1 := n0 % 146097
  let n100 := r1 / 36524
  let r2 := r1 % 36524
  let n4 := r2 / 1461
  let r3 := r2 % 1461
  let n1 := r3 / 365
  let r4 := r3 % 365
  let year := 400 * n400 + 100 * n100 + 4 * n4 + n1 + 1
  if n1 = 4 ∨ n100 = 4 then (year - 1, 12, 31)
  else
    let m := monthOfDayOfYear year r4
    (year, m, r4 - daysBeforeMonth year m + 1)

/-- Zero-pad a number to width `w` (as `strftime` does for %Y, %m, %d). -/
def padNum (w n : Nat) : String :=
  let s := toString n
  String.mk (List.replicate (w - s.length) '0') ++ s

/-- `date.strftime('%Y-%m-%d')` on the date with the given ordinal. -/
def fmtDay (n : Int) : String :=
  let ymd := ord2ymd n.toNat
  padNum 4 ymd.1 ++ "-" ++ padNum 2 ymd.2.1 ++ "-" ++ padNum 2 ymd.2.2

/-- Split a character list at every dash. -/
def splitDash : List Char → List (List Char)
  | [] => [[]]
  | '-' :: rest => [] :: splitDash rest
  | c :: rest =>
    match splitDash rest with
    | [] => [[c]]
    | g :: gs => (c :: g) :: gs

/-- A month or day field of `strptime('%Y-%m-%d')`: one or two digits. -/
def parseField2 (cs : List Char) : Option Nat :=
  if cs ≠ [] ∧ cs.length ≤ 2 ∧ cs.all (fun c => c.isDigit) then some (digitsToNat cs)
  else none

/-- `datetime.datetime.strptime(s, '%Y-%m-%d').date()` (as an ordinal):
exactly three dash-separated fields, the year exactly four digits, month and
day one or two digits, with %m in 1..12, and the date a valid calendar date
(day within the month, year at least 1); `none` models a `ValueError`. -/
def parseDate (s : String) : Option Int :=
  match splitDash s.data with
  | [ys, ms, ds] =>
    if ys.length = 4 ∧ ys.all (fun c => c.isDigit) then
      let y := digitsToNat ys
      match parseField2 ms, parseField2 ds with
      | some m, some d =>
        if 1 ≤ y ∧ 1 ≤ m ∧ m ≤ 12 ∧ 1 ≤ d ∧ d ≤ daysInMonth y m then
          some ((toOrdinal y m d : Nat) : Int)
        else none
      | _, _ => none
    else none
  | _ => none

/- ### Single-query tools -/

/-- The JSON documents a single-query tool can return. -/
inductive SingleOutput where
  | flightsOut (flights : List Flight)
  | roundTripOut (round_trip_options : List Flight)
  | messageOut (message : String)
  | errorOut (message : String) (etype : String)
deriving DecidableEq, Repr

/-- The per-pair post-processing before truncation: stop filter, then the
optional price sort (`flights_list` after lines 114-119 / 320-325). -/
def filteredOffers (stops : Option Int) (sort_cheapest : Bool)
    (result : Option FResult) : List Flight :=
  sortOffers sort_cheapest (stopsFilter stops (flightsListOf result))

/-- The full per-pair offer pipeline: filter, sort, truncate to `limit`,
convert each flight to a dict. -/
def processOffers (stops : Option Int) (sort_cheapest : Bool) (limit : Option Int)
    (result : Option FResult) : List Flight :=
  (pySlice limit (filteredOffers stops sort_cheapest result)).map flight_to_dict

def invalidDateMsg (date : String) : String :=
  "Invalid date format: \x27" ++ date ++ "\x27. Please use YYYY-MM-DD."

def noFlightsMsg (origin destination date : String) : String :=
  "No flights found for " ++ origin ++ " -> " ++ destination ++ " on " ++ date ++ "."

/-- `get_flights_on_date`.  The provider call outcome is a parameter; the
`try` block covers the date validation, the provider call and the
processing, with `except ValueError` mapping to the invalid-date payload
and `except Exception` to the generic payload. -/
def get_flights_on_date (providerResult : Except PyExc (Option FResult))
    (origin destination date : String)
    (sort_cheapest : Bool) (stops limit : Option Int) : SingleOutput :=
  match parseDate date with
  | none => .errorOut (invalidDateMsg date) "ValueError"
  | some _ =>
    match providerResult with
    | .error e =>
      if e.ename = "ValueError" then .errorOut (invalidDateMsg date) "ValueError"
      else .errorOut "An unexpected error occurred." e.ename
    | .ok result =>
      let flights_list := filteredOffers stops sort_cheapest result
      let processed_flights := (pySlice limit flights_list).map flight_to_dict
      if flights_list ≠ [] then .flightsOut processed_flights
      else .messageOut (noFlightsMsg origin destination date)

def noRoundTripMsg (origin destination dep ret : String) : String :=
  "No round trip flights found for " ++ origin ++ " <-> " ++ destination ++
    " from " ++ dep ++ " to " ++ ret ++ "."

/-- `get_round_trip_flights`: same shape as `get_flights_on_date` with two
dates validated and a different payload key and message. -/
def get_round_trip_flights (providerResult : Except PyExc (Option FResult))
    (origin destination departure_date return_date : String)
    (sort_cheapest : Bool) (stops limit : Option Int) : SingleOutput :=
  match parseDate departure_date, parseDate return_date with
  | some _, some _ =>
    match providerResult with
    | .error e =>
      if e.ename = "ValueError" then
        .errorOut "Invalid date format provided. Use YYYY-MM-DD." "ValueError"
      else .errorOut "An unexpected error occurred." e.ename
    | .ok result =>
      let flights_list := filteredOffers stops sort_cheapest result
      let processed_flights := (pySlice limit flights_list).map flight_to_dict
      if flights_list ≠ [] then .roundTripOut processed_flights
      else .messageOut (noRoundTripMsg origin destination departure_date return_date)
  | _, _ => .errorOut "Invalid date format provided. Use YYYY-MM-DD." "ValueError"

/- ### Range scan -/

/-- `dateListAux n s = [s, s+1, ..., s+n-1]`. -/
def dateListAux : Nat → Int → List Int
  | 0, _ => []
  | n + 1, s => s :: dateListAux n (s + 1)

/-- The `while current_date <= end_date` loop building `date_list`:
every day from `s` to `e` inclusive (empty when `s > e`). -/
def dateList (s e : Int) : List Int := dateListAux (e + 1 - s).toNat s

/-- `valid_stay`: starts `True`, cleared when a present bound is violated. -/
def validStay (minS maxS : Option Int) (stay : Int) : Bool :=
  (match minS with | none => true | some m => decide (m ≤ stay)) &&
  (match maxS with | none => true | some M => decide (stay ≤ M))

/-- The nested loops building `date_pairs_to_check`: for each departure date
(in list order), every return date from its own position onward whose stay
duration passes `validStay`, in list order. -/
def datePairs (minS maxS : Option Int) : List Int → List (Int × Int)
  | [] => []
  | d :: rest =>
    ((d :: rest).filter (fun r => validStay minS maxS (r - d))).map (fun r => (d, r))
      ++ datePairs minS maxS rest

/-- One entry of `results_data`. -/
structure PairEntry where
  departure_date : String
  return_date : String
  flights : List Flight
deriving DecidableEq, Repr

/-- The two accumulators of the range-scan loop. -/
structure ScanState where
  results_data : List PairEntry
  error_messages : List String
deriving DecidableEq, Repr

/-- `err_msg` built in the per-pair `except` handler (line 337). -/
def renderErrMsg (d r : Int) (e : PyExc) : String :=
  "Error fetching flights for " ++ fmtDay d ++ " -> " ++ fmtDay r ++ ": " ++ e.ename
    ++ ". Check server logs for details: " ++ pyStrTake 100 e.msg ++ "..."

/-- One iteration of the range-scan loop (lines 300-339): on success append
a results entry; on an exception append the rendered message to
`error_messages` unless it is already present. -/
def scanStep (provider : Int × Int → Except PyExc (Option FResult))
    (stops : Option Int) (sort_cheapest : Bool) (limit : Option Int)
    (st : ScanState) (p : Int × Int) : ScanState :=
  match provider p with
  | .ok result =>
    { st with results_data := st.results_data ++
        [⟨fmtDay p.1, fmtDay p.2, processOffers stops sort_cheapest limit result⟩] }
  | .error e =>
    let err_msg := renderErrMsg p.1 p.2 e
    if err_msg ∈ st.error_messages then st
    else { st with error_messages := st.error_messages ++ [err_msg] }

/-- The whole per-pair loop, folded over the enumerated pairs. -/
def runScan (provider : Int × Int → Except PyExc (Option FResult))
    (stops : Option Int) (sort_cheapest : Bool) (limit : Option Int)
    (pairs : List (Int × Int)) : ScanState :=
  pairs.foldl (scanStep provider stops sort_cheapest limit) ⟨[], []⟩

/-- The JSON documents `find_all_flights_in_range` can return. -/
inductive RangeOutput where
  | errorOut (message : String) (etype : String)
  | errorStr (message : String)
  | report (all_round_trip_options : List PairEntry)
      (errors_encountered : Option (List String))
  | fallback (message : String) (errors_encountered : Option (List String))
deriving DecidableEq, Repr

/-- `error_messages if error_messages else None`. -/
def noneIfEmpty (l : List String) : Option (List String) :=
  if l = [] then none else some l

def rangeFallbackMsg (origin destination start_str end_str : String) : String :=
  "No flights found and no errors encountered for " ++ origin ++ " -> " ++
    destination ++ " in the range " ++ start_str ++ " to " ++ end_str ++ "."

/-- Lines 344-356: return the report whenever `results_data` or
`error_messages` is non-empty, otherwise the fallback message document. -/
def assembleReport (origin destination start_str end_str : String)
    (st : ScanState) : RangeOutput :=
  if st.results_data ≠ [] ∨ st.error_messages ≠ [] then
    .report st.results_data (noneIfEmpty st.error_messages)
  else
    .fallback (rangeFallbackMsg origin destination start_str end_str)
      (noneIfEmpty st.error_messages)

/-- `find_all_flights_in_range` (lines 218-356): validate the two range
endpoints, reject an inverted range, build the date list and the valid
date pairs, run the per-pair loop, and assemble the output document. -/
def find_all_flights_in_range (provider : Int × Int → Except PyExc (Option FResult))
    (origin destination start_date_str end_date_str : String)
    (min_stay_days max_stay_days : Option Int)
    (sort_cheapest : Bool) (stops limit : Option Int) : RangeOutput :=
  match parseDate start_date_str, parseDate end_date_str with
  | some start_date, some end_date =>
    if start_date > end_date then
      .errorOut "Start date cannot be after end date." "ValueError"
    else
      if dateList start_date end_date = [] then
        .errorStr "No valid dates in the specified range."
      else
        assembleReport origin destination start_date_str end_date_str
          (runScan provider stops sort_cheapest limit
            (datePairs min_stay_days max_stay_days (dateList start_date end_date)))
  | _, _ => .errorOut "Invalid date format. Use YYYY-MM-DD." "ValueError"

/-- Keep the first occurrence of every string, in first-occurrence order:
the specification-side description of the accumulation on line 338. -/
def dedupFirst : List String → List String
  | [] => []
  | x :: l => x :: dedupFirst (l.filter (fun y => y ≠ x))
termination_by l => l.length
decreasing_by
  simp only [List.length_cons]
  exact Nat.lt_succ_of_le (List.length_filter_le _ _)

/-- Specification-side view of one loop iteration: the results entry a
pair contributes (`none` when the provider raises on it). -/
def succEntry (provider : Int × Int → Except PyExc (Option FResult))
    (stops : Option Int) (sort_cheapest : Bool) (limit : Option Int)
    (p : Int × Int) : Option PairEntry :=
  match provider p with
  | .ok result =>
    some ⟨fmtDay p.1, fmtDay p.2, processOffers stops sort_cheapest limit result⟩
  | .error _ => none

/-- Specification-side view of one loop iteration: the rendered error
message a pair contributes (`none` on success). -/
def failMsg (provider : Int × Int → Except PyExc (Option FResult))
    (p : Int × Int) : Option String :=
  match provider p with
  | .ok _ => none
  | .error e => some (renderErrMsg p.1 p.2 e)

/- ### Concrete fixtures used by counterexamples and witnesses -/

/-- A flight offer with every attribute missing. -/
def f0 : Flight := ⟨none, none, none, none, none, none, none, none, none⟩

/-- A provider that succeeds on the pair `(0, 0)` and raises elsewhere. -/
def exProvider1 : Int × Int → Except PyExc (Option FResult) :=
  fun p => if p = (0, 0) then .ok none else .error ⟨"RuntimeError", "boom"⟩

/-- A 101-character exception message. -/
def longMsg : String := String.mk (List.replicate 101 'a')

/-- A provider that always raises with the 101-character message. -/
def exProvider2 : Int × Int → Except PyExc (Option FResult) :=
  fun _ => .error ⟨"RuntimeError", longMsg⟩

/-- A provider that always raises with a short message. -/
def exProvider3 : Int × Int → Except PyExc (Option FResult) :=
  fun _ => .error ⟨"RuntimeError", "boom"⟩

/-- A provider result holding one offer with no attributes. -/
def exResult1 : Option FResult := some ⟨some [f0]⟩

/-- The strict lexicographic order on date pairs: the enumeration order of
the range scan (departure ascending, then return ascending). -/
def pairLexLT (p q : Int × Int) : Prop :=
  p.1 < q.1 ∨ (p.1 = q.1 ∧ p.2 < q.2)

/- ### Theorems -/

theorem mem_dateListAux {n : Nat} {s a : Int} :
    a ∈ dateListAux n s ↔ s ≤ a ∧ a < s + n := by
  induction n generalizing s with
  | zero => simp [dateListAux]
  | succ m ih =>
    simp only [dateListAux, List.mem_cons, ih]
    omega

theorem mem_dateList {s e a : Int} : a ∈ dateList s e ↔ s ≤ a ∧ a ≤ e := by
  rw [dateList, mem_dateListAux]
  omega

theorem pairwise_dateListAux (n : Nat) (s : Int) :
    (dateListAux n s).Pairwise (· < ·) := by
  induction n generalizing s with
  | zero => simp [dateListAux]
  | succ m ih =>
    simp only [dateListAux, List.pairwise_cons]
    refine ⟨fun a ha => ?_, ih (s + 1)⟩
    have := mem_dateListAux.mp ha
    omega

theorem pairwise_dateList (s e : Int) : (dateList s e).Pairwise (· < ·) :=
  pairwise_dateListAux _ _

theorem dateList_ne_nil {s e : Int} (h : s ≤ e) : dateList s e ≠ [] := by
  rw [dateList]
  have h1 : (e + 1 - s).toNat = (e - s).toNat + 1 := by omega
  rw [h1, dateListAux]
  exact List.cons_ne_nil _ _

theorem fst_mem_datePairs {mn mx : Option Int} {dl : List Int} {p : Int × Int}
    (h : p ∈ datePairs mn mx dl) : p.1 ∈ dl := by
  induction dl with
  | nil => simp [datePairs] at h
  | cons d rest ih =>
    rw [datePairs] at h
    rcases List.mem_append.mp h with h1 | h2
    · obtain ⟨r, _, hr⟩ := List.mem_map.mp h1
      rw [← hr]
      exact List.mem_cons_self _ _
    · exact List.mem_cons_of_mem _ (ih h2)

theorem mem_datePairs_dateListAux {mn mx : Option Int} {d r : Int} :
    ∀ (n : Nat) (s : Int),
    (d, r) ∈ datePairs mn mx (dateListAux n s) ↔
      s ≤ d ∧ d ≤ r ∧ r < s + n ∧ validStay mn mx (r - d) = true := by
  intro n
  induction n with
  | zero =>
    intro s
    simp only [dateListAux, datePairs, List.not_mem_nil, false_iff]
    rintro ⟨h1, h2, h3, _⟩
    omega
  | succ m ih =>
    intro s
    rw [dateListAux, datePairs]
    simp only [List.mem_append, List.mem_map, List.mem_filter, ih (s + 1)]
    constructor
    · rintro (⟨r2, ⟨hr, hv⟩, heq⟩ | ⟨h1, h2, h3, h4⟩)
      · obtain ⟨rfl, rfl⟩ : s = d ∧ r2 = r := by
          constructor <;> [exact (Prod.mk.injEq .. ▸ heq).1; exact (Prod.mk.injEq .. ▸ heq).2]
        rcases List.mem_cons.mp hr with rfl | hr2
        · exact ⟨by omega, by omega, by omega, hv⟩
        · have := mem_dateListAux.mp hr2
          exact ⟨by omega, by omega, by omega, hv⟩
      · exact ⟨by omega, h2, by omega, h4⟩
    · rintro ⟨h1, h2, h3, h4⟩
      by_cases hd : d = s
      · subst hd
        refine Or.inl ⟨r, ⟨?_, h4⟩, rfl⟩
        rw [List.mem_cons]
        rcases eq_or_lt_of_le h2 with heq | hlt
        · exact Or.inl heq.symm
        · exact Or.inr (mem_dateListAux.mpr ⟨by omega, by omega⟩)
      · exact Or.inr ⟨by omega, h2, by omega, h4⟩

theorem mem_datePairs_dateList {mn mx : Option Int} {s e d r : Int} :
    (d, r) ∈ datePairs mn mx (dateList s e) ↔
      s ≤ d ∧ d ≤ r ∧ r ≤ e ∧ validStay mn mx (r - d) = true := by
  rw [dateList, mem_datePairs_dateListAux]
  constructor <;> rintro ⟨h1, h2, h3, h4⟩ <;> exact ⟨by omega, by omega, by omega, h4⟩

theorem pairwise_datePairs {mn mx : Option Int} : ∀ {dl : List Int},
    dl.Pairwise (· < ·) → (datePairs mn mx dl).Pairwise pairLexLT := by
  intro dl h
  induction dl with
  | nil => simp [datePairs]
  | cons d rest ih =>
    rw [List.pairwise_cons] at h
    obtain ⟨hd, hrest⟩ := h
    rw [datePairs]
    apply List.pairwise_append.mpr
    refine ⟨?_, ih hrest, ?_⟩
    · refine List.Pairwise.map _ (fun a b hab => Or.inr ⟨rfl, hab⟩) ?_
      exact List.Pairwise.filter _ (List.pairwise_cons.mpr ⟨hd, hrest⟩)
    · rintro p hp q hq
      obtain ⟨r2, _, hr⟩ := List.mem_map.mp hp
      have hq1 : q.1 ∈ rest := fst_mem_datePairs hq
      left
      rw [← hr]
      exact hd _ hq1

/-- C2: for every `start ≤ end` and optional stay bounds, the date-pair
enumeration yields exactly the pairs `(d, r)` with
`start ≤ d ≤ r ≤ end` whose stay duration `r - d` satisfies both bounds
inclusively; the sequence is strictly increasing in (departure, return)
lexicographic order (departure ascending, then return ascending); it is
empty when `min_stay > end - start`; and when `start = end` every
enumerated pair is the single same-day pair. -/
theorem c2_date_pair_enumeration (s e : Int) (mn mx : Option Int) (hse : s ≤ e) :
    (∀ d r : Int, (d, r) ∈ datePairs mn mx (dateList s e) ↔
        s ≤ d ∧ d ≤ r ∧ r ≤ e ∧ validStay mn mx (r - d) = true)
    ∧ (datePairs mn mx (dateList s e)).Pairwise pairLexLT
    ∧ (∀ m : Int, mn = some m → e - s < m → datePairs mn mx (dateList s e) = [])
    ∧ (s = e → ∀ p ∈ datePairs mn mx (dateList s e), p = (s, s)) := by
  refine ⟨fun d r => mem_datePairs_dateList, pairwise_datePairs (pairwise_dateList s e),
    ?_, ?_⟩
  · intro m hm hlt
    rw [List.eq_nil_iff_forall_not_mem]
    rintro ⟨d, r⟩ hp
    obtain ⟨h1, h2, h3, h4⟩ := mem_datePairs_dateList.mp hp
    rw [hm] at h4
    simp only [validStay, Bool.and_eq_true, decide_eq_true_eq] at h4
    omega
  · rintro rfl ⟨d, r⟩ hp
    obtain ⟨h1, h2, h3, _⟩ := mem_datePairs_dateList.mp hp
    have : d = s ∧ r = s := by omega
    rw [this.1, this.2]

/-- Witness for C2: the spec scenario start 10, end 12, `min_stay = 1`
enumerates exactly (10,11), (10,12), (11,12), and the enumeration-order
theorem applies to it. -/
theorem c2_witness :
    datePairs (some 1) none (dateList 10 12) = [(10, 11), (10, 12), (11, 12)]
    ∧ (datePairs (some 1) none (dateList 10 12)).Pairwise pairLexLT := by
  have h := c2_date_pair_enumeration 10 12 (some 1) none (by decide)
  exact ⟨by decide, h.2.1⟩

/-- C3: an unparsable start or end date string makes
`find_all_flights_in_range` return the invalid-date-format error object,
and a successfully parsed range with start after end the invalid-range
error object.  Both conclusions hold for every provider, so no provider
call influences them (no enumeration or provider call is attempted), and
the result is a structured error document, never a raw exception. -/
theorem c3_validation_errors
    (provider : Int × Int → Except PyExc (Option FResult))
    (origin destination s e : String) (mn mx : Option Int)
    (sc : Bool) (stops limit : Option Int) :
    ((parseDate s = none ∨ parseDate e = none) →
      find_all_flights_in_range provider origin destination s e mn mx sc stops limit =
        .errorOut "Invalid date format. Use YYYY-MM-DD." "ValueError")
    ∧ (∀ ds de : Int, parseDate s = some ds → parseDate e = some de → de < ds →
      find_all_flights_in_range provider origin destination s e mn mx sc stops limit =
        .errorOut "Start date cannot be after end date." "ValueError") := by
  constructor
  · intro h
    rcases h with h | h
    · rw [find_all_flights_in_range, h]
    · cases hps : parseDate s with
      | none => rw [find_all_flights_in_range, hps]
      | some ds => rw [find_all_flights_in_range, hps, h]
  · intro ds de hs he hlt
    simp only [find_all_flights_in_range, hs, he]
    rw [if_pos hlt]

/-- Witness for C3: the spec scenario with a month of 13 in the start
date produces the invalid-date-format error object. -/
theorem c3_witness :
    find_all_flights_in_range exProvider3 "JFK" "MIA" "2025-13-01" "2025-09-20"
      none none false none (some 10) =
      .errorOut "Invalid date format. Use YYYY-MM-DD." "ValueError" :=
  (c3_validation_errors exProvider3 "JFK" "MIA" "2025-13-01" "2025-09-20" none none
    false none (some 10)).1 (Or.inl (by decide))

theorem infLE_trans : ∀ a b c : Option Int,
    infLE a b = true → infLE b c = true → infLE a c = true := by
  intro a b c h1 h2
  cases a <;> cases b <;> cases c <;> simp [infLE] at * <;> omega

theorem infLE_total : ∀ a b : Option Int, (infLE a b || infLE b a) = true := by
  intro a b
  cases a <;> cases b <;> simp [infLE] <;> omega

theorem infLE_refl (a : Option Int) : infLE a a = true := by
  cases a <;> simp [infLE]

theorem infLE_none_left {b : Option Int} (h : infLE none b = true) : b = none := by
  cases b with
  | none => rfl
  | some x => simp [infLE] at h

theorem priceLE_trans : ∀ a b c : Flight,
    priceLE a b = true → priceLE b c = true → priceLE a c = true :=
  fun _ _ _ h1 h2 => infLE_trans _ _ _ h1 h2

theorem priceLE_total : ∀ a b : Flight, (priceLE a b || priceLE b a) = true :=
  fun _ _ => infLE_total _ _

/-- C4: sorting with `sort_cheapest = true` yields a permutation of the
input that is non-decreasing in parsed price, is stable (offers with equal
parsed price keep their filter-observable relative order), and places
every offer whose price is missing or unparsable (parsed as the maximum,
`float('inf')`) after every offer with a parsable price. -/
theorem c4_sort_cheapest (l : List Flight) :
    (sortOffers true l).Perm l
    ∧ (sortOffers true l).Pairwise (fun a b => priceLE a b = true)
    ∧ (∀ v : Option Int,
        (sortOffers true l).filter (fun f => parse_price f.price = v) =
          l.filter (fun f => parse_price f.price = v))
    ∧ (sortOffers true l).Pairwise
        (fun a b => parse_price a.price = none → parse_price b.price = none) := by
  have hperm : (sortOffers true l).Perm l := by
    simpa [sortOffers] using List.mergeSort_perm l priceLE
  have hsorted : (sortOffers true l).Pairwise (fun a b => priceLE a b = true) := by
    simpa [sortOffers] using List.sorted_mergeSort priceLE_trans priceLE_total l
  refine ⟨hperm, hsorted, fun v => ?_, ?_⟩
  · have hmemc : ∀ f ∈ l.filter (fun f => parse_price f.price = v),
        parse_price f.price = v := by
      intro f hf
      simpa using (List.mem_filter.mp hf).2
    have hc : (l.filter (fun f => parse_price f.price = v)).Pairwise
        (fun a b => priceLE a b = true) := by
      apply List.pairwise_of_forall_mem_list
      intro a ha b hb
      have h1 := hmemc a ha
      have h2 := hmemc b hb
      unfold priceLE
      rw [h1, h2]
      exact infLE_refl v
    have hsub : (l.filter (fun f => parse_price f.price = v)).Sublist (sortOffers true l) := by
      have := List.sublist_mergeSort priceLE_trans priceLE_total hc (List.filter_sublist l)
      simpa [sortOffers] using this
    have hsub2 : (l.filter (fun f => parse_price f.price = v)).Sublist
        ((sortOffers true l).filter (fun f => parse_price f.price = v)) := by
      have h := List.Sublist.filter (fun f => decide (parse_price f.price = v)) hsub
      rwa [List.filter_eq_self.mpr (fun a ha => by simpa using hmemc a ha)] at h
    have hpermf : ((sortOffers true l).filter (fun f => parse_price f.price = v)).Perm
        (l.filter (fun f => parse_price f.price = v)) :=
      hperm.filter _
    exact (hsub2.eq_of_length hpermf.length_eq.symm).symm
  · refine hsorted.imp ?_
    intro a b hab ha
    unfold priceLE at hab
    rw [ha] at hab
    exact infLE_none_left hab

/-- C5: with a provided stop count `k` the filter retains exactly the
offers whose stop count equals `k` (an offer with a missing stop count is
dropped); with no stop filter the list passes through unchanged. -/
theorem c5_stops_filter (l : List Flight) :
    (∀ k : Int,
      (∀ f, f ∈ stopsFilter (some k) l ↔ f ∈ l ∧ f.stops = some k)
      ∧ (stopsFilter (some k) l).Sublist l
      ∧ (∀ f, f ∈ l → f.stops = none → f ∉ stopsFilter (some k) l))
    ∧ stopsFilter none l = l := by
  refine ⟨fun k => ⟨fun f => ?_, List.filter_sublist l, fun f hf hn hmem => ?_⟩, rfl⟩
  · simp [stopsFilter, List.mem_filter]
  · have h2 : f.stops = some k := by
      have := (List.mem_filter.mp hmem).2
      simpa using this
    rw [hn] at h2
    cases h2

theorem map_flight_to_dict (l : List Flight) : l.map flight_to_dict = l := by
  induction l with
  | nil => rfl
  | cons a t ih => simp [flight_to_dict, ih]

/-- C8 counterexample: with `limit = -1` on a two-offer list, the code
keeps the first offer (Python slice semantics `l[:-1]`), not "the first
-1 entries" (which would be the empty list), so the claim fails for
negative integer limits supplied at the public interface. -/
theorem c8_counterexample :
    pySlice (some (-1)) [f0, f0] ≠ [f0, f0].take ((-1 : Int)).toNat
    ∧ pySlice (some (-1)) [f0, f0] = [f0] := by decide

/-- C8 amended: `limit = null` keeps the whole processed list; a
nonnegative `limit` keeps exactly the first `limit` entries; a negative
`limit` follows Python slice semantics and keeps all but the last
`|limit|` entries.  The per-pair pipeline applies exactly this truncation
to the filtered and optionally sorted list. -/
theorem c8_limit_truncation (l : List Flight) :
    pySlice none l = l
    ∧ (∀ n : Int, 0 ≤ n → pySlice (some n) l = l.take n.toNat)
    ∧ (∀ n : Int, n < 0 → pySlice (some n) l = l.take ((l.length : Int) + n).toNat)
    ∧ (∀ (stops : Option Int) (sc : Bool) (limit : Option Int) (r : Option FResult),
        processOffers stops sc limit r = pySlice limit (filteredOffers stops sc r)) := by
  refine ⟨rfl, fun n hn => ?_, fun n hn => ?_, fun stops sc limit r => ?_⟩
  · simp [pySlice, hn]
  · simp [pySlice, not_le.mpr hn]
  · simp [processOffers, map_flight_to_dict]

/-- Witness for C8: a nonnegative limit of 1 keeps the first entry. -/
theorem c8_witness :
    pySlice (some 1) [f0, f0] = [f0, f0].take ((1 : Int)).toNat :=
  (c8_limit_truncation [f0, f0]).2.1 1 (by decide)

/-- C9: when both endpoints parse, the range is not inverted, and the
enumerated pair sequence is empty, the call returns the fallback
"no flights found and no errors encountered" message document (with a
null error list) and never an error object. -/
theorem c9_empty_enumeration
    (provider : Int × Int → Except PyExc (Option FResult))
    (origin destination s e : String) (mn mx : Option Int)
    (sc : Bool) (stops limit : Option Int) (ds de : Int)
    (h1 : parseDate s = some ds) (h2 : parseDate e = some de) (h3 : ds ≤ de)
    (h4 : datePairs mn mx (dateList ds de) = []) :
    find_all_flights_in_range provider origin destination s e mn mx sc stops limit =
      .fallback (rangeFallbackMsg origin destination s e) none
    ∧ ∀ m t, find_all_flights_in_range provider origin destination s e mn mx sc stops limit ≠
        .errorOut m t := by
  have key : find_all_flights_in_range provider origin destination s e mn mx sc stops limit =
      .fallback (rangeFallbackMsg origin destination s e) none := by
    simp only [find_all_flights_in_range, h1, h2]
    rw [if_neg (by omega : ¬ ds > de)]
    rw [if_neg (fun hc => dateList_ne_nil h3 hc)]
    rw [h4]
    simp [runScan, assembleReport, noneIfEmpty]
  refine ⟨key, fun m t => ?_⟩
  rw [key]
  intro hc
  cases hc

/-- Witness for C9: a two-day window with `min_stay_days = 5` enumerates
no pair and returns the fallback message document. -/
theorem c9_witness :
    find_all_flights_in_range exProvider3 "JFK" "MIA" "2025-09-10" "2025-09-11"
      (some 5) none false none (some 10) =
      .fallback (rangeFallbackMsg "JFK" "MIA" "2025-09-10" "2025-09-11") none :=
  (c9_empty_enumeration exProvider3 "JFK" "MIA" "2025-09-10" "2025-09-11" (some 5) none
    false none (some 10) 739504 739505 (by decide) (by decide) (by decide) (by decide)).1

/-- C10: on the single-date path the no-flights message branch is decided
by the post-stop-filter, pre-truncation list: the message is returned iff
that list is empty; when it is non-empty the call returns the well-formed
`flights` document holding the truncated list (so `limit = 0` on a
non-empty filtered list yields a `flights` document with an empty list,
not the no-flights message). -/
theorem c10_no_flights_branch
    (providerResult : Except PyExc (Option FResult))
    (origin destination date : String) (sc : Bool) (stops limit : Option Int)
    (result : Option FResult) (od : Int)
    (hd : parseDate date = some od) (hr : providerResult = .ok result) :
    (get_flights_on_date providerResult origin destination date sc stops limit =
        .messageOut (noFlightsMsg origin destination date)
      ↔ filteredOffers stops sc result = [])
    ∧ (filteredOffers stops sc result ≠ [] →
      get_flights_on_date providerResult origin destination date sc stops limit =
        .flightsOut ((pySlice limit (filteredOffers stops sc result)).map flight_to_dict)) := by
  subst hr
  rw [get_flights_on_date, hd]
  by_cases h : filteredOffers stops sc result = []
  · simp [h]
  · simp [h]

/-- Witness for C10: one offer survives the (absent) stop filter and
`limit = 0`, so the call returns a `flights` document whose list is
empty, not the no-flights message. -/
theorem c10_witness :
    get_flights_on_date (.ok exResult1) "SFO" "JFK" "2025-07-20" false none (some 0) =
      .flightsOut ((pySlice (some 0) (filteredOffers none false exResult1)).map flight_to_dict)
    ∧ (pySlice (some 0) (filteredOffers none false exResult1)).map flight_to_dict = [] := by
  constructor
  · exact (c10_no_flights_branch (.ok exResult1) "SFO" "JFK" "2025-07-20" false none
      (some 0) exResult1 739452 (by decide) rfl).2 (by decide)
  · decide

theorem dedupFirst_nil : dedupFirst [] = [] := by rw [dedupFirst]

theorem dedupFirst_cons (x : String) (l : List String) :
    dedupFirst (x :: l) = x :: dedupFirst (l.filter (fun y => y ≠ x)) := by
  rw [dedupFirst]

theorem mem_dedupFirst (l : List String) (a : String) : a ∈ dedupFirst l ↔ a ∈ l := by
  induction l using dedupFirst.induct with
  | case1 => rw [dedupFirst_nil]
  | case2 x t ih =>
    rw [dedupFirst_cons]
    simp only [List.mem_cons, ih, List.mem_filter]
    by_cases hax : a = x
    · simp [hax]
    · simp [hax]

theorem dedupFirst_sublist (l : List String) : (dedupFirst l).Sublist l := by
  induction l using dedupFirst.induct with
  | case1 => rw [dedupFirst_nil]
  | case2 x t ih =>
    rw [dedupFirst_cons]
    exact (ih.trans (List.filter_sublist t)).cons₂ x

theorem nodup_dedupFirst (l : List String) : (dedupFirst l).Nodup := by
  induction l using dedupFirst.induct with
  | case1 => rw [dedupFirst_nil]; exact List.nodup_nil
  | case2 x t ih =>
    rw [dedupFirst_cons]
    refine List.nodup_cons.mpr ⟨fun hx => ?_, ih⟩
    have h2 := (List.mem_filter.mp ((mem_dedupFirst _ _).mp hx)).2
    simp at h2

theorem foldl_scanStep (provider : Int × Int → Except PyExc (Option FResult))
    (stops : Option Int) (sc : Bool) (limit : Option Int) :
    ∀ (pairs : List (Int × Int)) (st : ScanState),
    pairs.foldl (scanStep provider stops sc limit) st =
      ⟨st.results_data ++ pairs.filterMap (succEntry provider stops sc limit),
       st.error_messages ++ dedupFirst ((pairs.filterMap (failMsg provider)).filter
         (fun m2 => m2 ∉ st.error_messages))⟩ := by
  intro pairs
  induction pairs with
  | nil => intro st; simp [dedupFirst_nil]
  | cons p rest ih =>
    intro st
    rw [List.foldl_cons]
    cases hp : provider p with
    | ok result =>
      have hstep : scanStep provider stops sc limit st p =
          { st with results_data := st.results_data ++
              [⟨fmtDay p.1, fmtDay p.2, processOffers stops sc limit result⟩] } := by
        rw [scanStep, hp]
      rw [hstep, ih]
      simp [succEntry, failMsg, hp, List.filterMap_cons, List.append_assoc]
    | error e =>
      by_cases hm : renderErrMsg p.1 p.2 e ∈ st.error_messages
      · have hstep : scanStep provider stops sc limit st p = st := by
          rw [scanStep, hp]
          simp [hm]
        rw [hstep, ih]
        simp [succEntry, failMsg, hp, List.filterMap_cons, List.filter_cons, hm]
      · have hstep : scanStep provider stops sc limit st p =
            { st with error_messages := st.error_messages ++ [renderErrMsg p.1 p.2 e] } := by
          rw [scanStep, hp]
          simp [hm]
        rw [hstep, ih]
        have hfilter : (rest.filterMap (failMsg provider)).filter
            (fun m2 => m2 ∉ st.error_messages ++ [renderErrMsg p.1 p.2 e]) =
            ((rest.filterMap (failMsg provider)).filter
              (fun m2 => m2 ∉ st.error_messages)).filter
                (fun m2 => m2 ≠ renderErrMsg p.1 p.2 e) := by
          rw [List.filter_filter]
          apply List.filter_congr
          intro y _
          by_cases h1 : y ∈ st.error_messages
          · simp [h1]
          · by_cases h2 : y = renderErrMsg p.1 p.2 e
            · simp [h1, h2]
            · simp [h1, h2]
        have hA : List.filterMap (failMsg provider) (p :: rest) =
            renderErrMsg p.1 p.2 e :: List.filterMap (failMsg provider) rest := by
          simp [List.filterMap_cons, failMsg, hp]
        have hsuc : List.filterMap (succEntry provider stops sc limit) (p :: rest) =
            List.filterMap (succEntry provider stops sc limit) rest := by
          simp [List.filterMap_cons, succEntry, hp]
        rw [hA, hsuc, hfilter]
        rw [List.filter_cons_of_pos (by simp [hm]), dedupFirst_cons]
        simp [List.append_assoc]

/-- The whole per-pair loop in closed form: results entries are the
successful pairs' entries in enumeration order, and `error_messages` is
the first-occurrence deduplication of the failing pairs' rendered
messages in enumeration order. -/
theorem runScan_spec (provider : Int × Int → Except PyExc (Option FResult))
    (stops : Option Int) (sc : Bool) (limit : Option Int)
    (pairs : List (Int × Int)) :
    runScan provider stops sc limit pairs =
      ⟨pairs.filterMap (succEntry provider stops sc limit),
       dedupFirst (pairs.filterMap (failMsg provider))⟩ := by
  rw [runScan, foldl_scanStep]
  simp

/-- C1 counterexample: a scan over two enumerated pairs whose provider
fails on the second yields a report with one results entry, not one per
enumerated pair — the failing pair contributes no results entry. -/
theorem c1_counterexample :
    (runScan exProvider1 none false (some 10) [(0, 0), (1, 1)]).results_data.length = 1
    ∧ ([((0 : Int), (0 : Int)), (1, 1)]).length = 2 := by
  exact ⟨by decide, rfl⟩

/-- C1 corrected: a provider failure on one pair never aborts the scan —
every enumerated pair contributes according to its own outcome,
independently of the other pairs — but a failing pair contributes no
results entry: the report carries one results entry per successful pair,
in enumeration order, and each failing pair is recorded only through its
rendered message in the deduplicated aggregate error list. -/
theorem c1_failure_isolation (provider : Int × Int → Except PyExc (Option FResult))
    (stops : Option Int) (sc : Bool) (limit : Option Int)
    (pairs : List (Int × Int)) :
    (runScan provider stops sc limit pairs).results_data =
      pairs.filterMap (succEntry provider stops sc limit)
    ∧ (runScan provider stops sc limit pairs).error_messages =
      dedupFirst (pairs.filterMap (failMsg provider))
    ∧ (∀ p e, p ∈ pairs → provider p = .error e →
        renderErrMsg p.1 p.2 e ∈ (runScan provider stops sc limit pairs).error_messages) := by
  have h := runScan_spec provider stops sc limit pairs
  refine ⟨by rw [h], by rw [h], fun p e hp he => ?_⟩
  rw [h]
  apply (mem_dedupFirst _ _).mpr
  apply List.mem_filterMap.mpr
  exact ⟨p, hp, by rw [failMsg, he]⟩

/-- Witness for C1: in the two-pair scan with a failure on the second
pair, the failing pair's rendered message is recorded. -/
theorem c1_witness :
    renderErrMsg 1 1 ⟨"RuntimeError", "boom"⟩ ∈
      (runScan exProvider1 none false (some 10) [(0, 0), (1, 1)]).error_messages :=
  (c1_failure_isolation exProvider1 none false (some 10) [(0, 0), (1, 1)]).2.2 (1, 1)
    ⟨"RuntimeError", "boom"⟩ (by decide) rfl

/-- C6: `unique_errors` is the first-occurrence deduplication of the
rendered failure messages in scan order: duplicate-free, a sublist of the
message stream (insertion order of first occurrences preserved), holding
exactly the messages that occur, each exactly once — several pairs
failing with identical rendered messages contribute a single entry. -/
theorem c6_error_dedup (provider : Int × Int → Except PyExc (Option FResult))
    (stops : Option Int) (sc : Bool) (limit : Option Int)
    (pairs : List (Int × Int)) :
    (runScan provider stops sc limit pairs).error_messages =
      dedupFirst (pairs.filterMap (failMsg provider))
    ∧ (runScan provider stops sc limit pairs).error_messages.Nodup
    ∧ (runScan provider stops sc limit pairs).error_messages.Sublist
        (pairs.filterMap (failMsg provider))
    ∧ (∀ m, m ∈ (runScan provider stops sc limit pairs).error_messages ↔
        m ∈ pairs.filterMap (failMsg provider))
    ∧ (∀ m, m ∈ pairs.filterMap (failMsg provider) →
        (runScan provider stops sc limit pairs).error_messages.count m = 1) := by
  have h : (runScan provider stops sc limit pairs).error_messages =
      dedupFirst (pairs.filterMap (failMsg provider)) := by
    rw [runScan_spec]
  refine ⟨h, ?_, ?_, ?_, ?_⟩
  · rw [h]; exact nodup_dedupFirst _
  · rw [h]; exact dedupFirst_sublist _
  · intro m; rw [h]; exact mem_dedupFirst _ _
  · intro m hm
    rw [h]
    refine Nat.le_antisymm ?_ ?_
    · exact List.nodup_iff_count_le_one.mp (nodup_dedupFirst _) m
    · exact List.count_pos_iff.mpr ((mem_dedupFirst _ _).mpr hm)

/-- Witness for C6: two enumerated pairs failing with identical rendered
messages contribute exactly one `unique_errors` entry. -/
theorem c6_witness :
    ([((0 : Int), (0 : Int)), (0, 0)]).filterMap (failMsg exProvider3) =
      [renderErrMsg 0 0 ⟨"RuntimeError", "boom"⟩,
        renderErrMsg 0 0 ⟨"RuntimeError", "boom"⟩]
    ∧ (runScan exProvider3 none false (some 10) [(0, 0), (0, 0)]).error_messages.count
        (renderErrMsg 0 0 ⟨"RuntimeError", "boom"⟩) = 1 := by
  refine ⟨rfl, ?_⟩
  exact (c6_error_dedup exProvider3 none false (some 10) [(0, 0), (0, 0)]).2.2.2.2
    (renderErrMsg 0 0 ⟨"RuntimeError", "boom"⟩) (by decide)

set_option maxRecDepth 40000 in
/-- C7 counterexample: the per-pair handler records only `str(e)[:100]`,
so a 101-character underlying message is not carried into any aggregate
error entry, and the failing pair also has no per-pair error record: its
`results_data` stays empty. -/
theorem c7_counterexample :
    (runScan exProvider2 none false (some 10) [(0, 0)]).results_data = []
    ∧ ¬ (∃ m ∈ (runScan exProvider2 none false (some 10) [(0, 0)]).error_messages,
        longMsg.data <:+: m.data) := by
  refine ⟨rfl, ?_⟩
  decide

/-- C7 corrected: a per-pair provider failure contributes — to the
aggregate error set only; no per-pair error record exists — a rendered
message carrying the exception type name and exactly the first 100
characters of the underlying message, so the underlying message text is
preserved in full only when it has at most 100 characters. -/
theorem c7_message_truncation (provider : Int × Int → Except PyExc (Option FResult))
    (stops : Option Int) (sc : Bool) (limit : Option Int)
    (pairs : List (Int × Int)) (p : Int × Int) (e : PyExc)
    (hp : p ∈ pairs) (he : provider p = .error e) :
    ∃ m ∈ (runScan provider stops sc limit pairs).error_messages,
      m = renderErrMsg p.1 p.2 e
      ∧ (pyStrTake 100 e.msg).data <:+: m.data
      ∧ e.ename.data <:+: m.data
      ∧ (e.msg.data.length ≤ 100 → e.msg.data <:+: m.data) := by
  have hmem : renderErrMsg p.1 p.2 e ∈
      (runScan provider stops sc limit pairs).error_messages := by
    rw [runScan_spec]
    apply (mem_dedupFirst _ _).mpr
    apply List.mem_filterMap.mpr
    exact ⟨p, hp, by rw [failMsg, he]⟩
  refine ⟨renderErrMsg p.1 p.2 e, hmem, rfl, ?_, ?_, ?_⟩
  · exact ⟨("Error fetching flights for " ++ fmtDay p.1 ++ " -> " ++ fmtDay p.2 ++ ": "
      ++ e.ename ++ ". Check server logs for details: ").data, ("...").data,
      by simp [renderErrMsg, String.data_append, List.append_assoc]⟩
  · exact ⟨("Error fetching flights for " ++ fmtDay p.1 ++ " -> " ++ fmtDay p.2
      ++ ": ").data, (". Check server logs for details: " ++ pyStrTake 100 e.msg
        ++ "...").data,
      by simp [renderErrMsg, String.data_append, List.append_assoc]⟩
  · intro hlen
    have htake : (pyStrTake 100 e.msg).data = e.msg.data := by
      show List.take 100 e.msg.data = e.msg.data
      exact List.take_of_length_le hlen
    exact ⟨("Error fetching flights for " ++ fmtDay p.1 ++ " -> " ++ fmtDay p.2 ++ ": "
      ++ e.ename ++ ". Check server logs for details: ").data, ("...").data,
      by simp [renderErrMsg, String.data_append, List.append_assoc, htake]⟩

/-- Witness for C7: a short message is carried in full into the single
aggregate entry of a one-pair failing scan. -/
theorem c7_witness :
    ∃ m ∈ (runScan exProvider3 none false (some 10) [(0, 0)]).error_messages,
      m = renderErrMsg 0 0 ⟨"RuntimeError", "boom"⟩
      ∧ (pyStrTake 100 ("boom" : String)).data <:+: m.data
      ∧ ("RuntimeError" : String).data <:+: m.data
      ∧ (("boom" : String).data.length ≤ 100 → ("boom" : String).data <:+: m.data) :=
  c7_message_truncation exProvider3 none false (some 10) [(0, 0)] (0, 0)
    ⟨"RuntimeError", "boom"⟩ (by decide) rfl

/-- Witness for C4: the sorted singleton is a permutation of the input. -/
theorem c4_witness : (sortOffers true [f0]).Perm [f0] :=
  (c4_sort_cheapest [f0]).1

/-- Witness for C5: an absent stop filter leaves the list unchanged. -/
theorem c5_witness : stopsFilter none [f0] = [f0] :=
  (c5_stops_filter [f0]).2

end Server
